import Mathlib

/-!
Shallow embedding of the timesheet workflow engine of
`src/backend/server.py` (FastAPI route handlers `save_timesheet`,
`submit_timesheet`, `approve_timesheet`, `reject_timesheet`), together
with theorems settling the specification claims about it.

Modelling conventions:
* The MongoDB collection `db.timesheets` is a list of `(record id, record)`
  pairs; `find_one` is first-match lookup, `update_one` replaces the first
  record with the matching id, `insert_one` appends a fresh id.
* Python `float` hours are modelled as exact rationals `ℚ`; the summation
  structure of the code (a nested accumulate loop) is kept verbatim.
* `datetime.now(timezone.utc)` is an explicit `now : Nat` parameter
  (an abstract UTC instant).
* `HTTPException` outcomes are an `ApiError`; the unhandled Python
  `AttributeError` raised by `ts.get(...)` on a missing record in
  `reject_timesheet` is the distinguished error `noneGet`.
* Status values are the literal strings used by the code
  ("Draft", "Submitted", "Approved", "Rejected").
-/

/-- Roles of `User.role` in `server.py` ("Employee", "Manager", "Admin"). -/
inductive Role where
  | Employee
  | Manager
  | Admin
deriving DecidableEq, Repr

/-- The caller identity (`current_user : User`) as consumed by the
timesheet routes: its `id`, `email` and `role` fields. -/
structure Identity where
  id : String
  email : String
  role : Role
deriving DecidableEq, Repr

/-- `DailyEntry` model of `server.py`. -/
structure DailyEntry where
  day_index : Int
  hours : ℚ
  notes : Option String := some ""
deriving DecidableEq, Repr

/-- `TimesheetRow` model of `server.py`. -/
structure TimesheetRow where
  project_id : String
  sub_project_id : String
  entries : List DailyEntry
  location : Option String := some "Remote"
deriving DecidableEq, Repr

/-- An `audit_trail` element `{action, user, timestamp}` of `server.py`. -/
structure AuditEntry where
  action : String
  user : String
  timestamp : Nat
deriving DecidableEq, Repr

/-- The `Timesheet` model of `server.py`, minus the storage id (record ids
are carried separately by the store). -/
structure Timesheet where
  user_id : String
  week_start_date : String
  rows : List TimesheetRow := []
  status : String := "Draft"
  submitted_at : Option Nat := none
  approved_at : Option Nat := none
  approved_by : Option String := none
  rejected_at : Option Nat := none
  audit_trail : List AuditEntry := []
  total_hours : ℚ := 0
deriving DecidableEq, Repr

/-- The `db.timesheets` collection: association list from record id
(`_id`) to record. -/
abbrev Store := List (String × Timesheet)

/-- `db.timesheets.find_one({"user_id": uid, "week_start_date": wk})`:
first record matching the natural key, with its id. -/
def findByKey (store : Store) (uid wk : String) : Option (String × Timesheet) :=
  store.find? (fun p => p.2.user_id == uid && p.2.week_start_date == wk)

/-- `db.timesheets.find_one({"_id": i})`: first record with the given id. -/
def findById (store : Store) (i : String) : Option Timesheet :=
  (store.find? (fun p => p.1 == i)).map (·.2)

/-- `db.timesheets.update_one({"_id": i}, {"$set": ...})`: replace the
first record with the given id (a no-op when no record matches). -/
def updateById : Store → String → Timesheet → Store
  | [], _, _ => []
  | p :: rest, i, v => if p.1 == i then (p.1, v) :: rest else p :: updateById rest i v

/-- Error outcomes of the timesheet routes: `Locked` is
`HTTPException(400, "Timesheet is locked")`, `NotFound` is
`HTTPException(404, "Timesheet not found")`, `Forbidden` is
`HTTPException(403, "Not authorized")`, and `noneGet` is the unhandled
Python `AttributeError` from calling `.get` on `None`. -/
inductive ApiError where
  | Locked
  | NotFound
  | Forbidden
  | noneGet
deriving DecidableEq, Repr

/-- The total-hours loop of `save_timesheet`:
`total = 0; for row in rows: for entry in row.entries: total += entry.hours`. -/
def computeTotal (rows : List TimesheetRow) : ℚ :=
  rows.foldl (fun acc row => row.entries.foldl (fun a e => a + e.hours) acc) 0

/-- `save_timesheet(timesheet, current_user)` of `server.py`.
`newId` is the id `insert_one` would assign on the insert path and `now`
the current UTC instant. Returns the updated store together with the
`Timesheet` the route returns (which is exactly the record written). -/
def save_timesheet (store : Store) (current_user : Identity) (timesheet : Timesheet)
    (newId : String) (now : Nat) : Except ApiError (Store × Timesheet) :=
  match findByKey store timesheet.user_id timesheet.week_start_date with
  | some (eid, ex) =>
    if (ex.status = "Submitted" ∨ ex.status = "Approved") ∧ current_user.role = Role.Employee then
      .error .Locked
    else
      let audit_entry : AuditEntry :=
        { action := "Updated", user := current_user.email, timestamp := now }
      let newTs : Timesheet :=
        { timesheet with
          total_hours := computeTotal timesheet.rows
          audit_trail := ex.audit_trail ++ [audit_entry]
          status := if ex.status = "Rejected" then "Draft" else ex.status }
      .ok (updateById store eid newTs, newTs)
  | none =>
    let audit_entry : AuditEntry :=
      { action := "Created", user := current_user.email, timestamp := now }
    let newTs : Timesheet :=
      { timesheet with
        total_hours := computeTotal timesheet.rows
        audit_trail := [audit_entry]
        status := "Draft" }
    .ok (store ++ [(newId, newTs)], newTs)

/-- `submit_timesheet(ts_id, current_user)` of `server.py`: 404 when the
record is missing; otherwise sets status "Submitted", `submitted_at`, and
appends one "Submitted" audit entry. The `total_hours < 40` check is a
pass (no effect). -/
def submit_timesheet (store : Store) (current_user : Identity) (ts_id : String)
    (now : Nat) : Except ApiError Store :=
  match findById store ts_id with
  | none => .error .NotFound
  | some ts =>
    let audit_entry : AuditEntry :=
      { action := "Submitted", user := current_user.email, timestamp := now }
    .ok (updateById store ts_id
      { ts with
        status := "Submitted"
        submitted_at := some now
        audit_trail := ts.audit_trail ++ [audit_entry] })

/-- `approve_timesheet(ts_id, current_user)` of `server.py`: 403 for an
Employee, 404 when the record is missing; otherwise sets status
"Approved", `approved_at`, `approved_by`, and appends one "Approved"
audit entry. -/
def approve_timesheet (store : Store) (current_user : Identity) (ts_id : String)
    (now : Nat) : Except ApiError Store :=
  if current_user.role = Role.Employee then
    .error .Forbidden
  else
    match findById store ts_id with
    | none => .error .NotFound
    | some ts =>
      let audit_entry : AuditEntry :=
        { action := "Approved", user := current_user.email, timestamp := now }
      .ok (updateById store ts_id
        { ts with
          status := "Approved"
          approved_at := some now
          approved_by := some current_user.id
          audit_trail := ts.audit_trail ++ [audit_entry] })

/-- `reject_timesheet(ts_id, current_user)` of `server.py`: 403 for an
Employee; there is no missing-record check, so when `find_one` returns
`None` the expression `ts.get('audit_trail', [])` raises an
`AttributeError` (modelled `noneGet`) before any update; otherwise sets
status "Rejected", `rejected_at`, and appends one "Rejected" audit
entry. -/
def reject_timesheet (store : Store) (current_user : Identity) (ts_id : String)
    (now : Nat) : Except ApiError Store :=
  if current_user.role = Role.Employee then
    .error .Forbidden
  else
    match findById store ts_id with
    | none => .error .noneGet
    | some ts =>
      let audit_entry : AuditEntry :=
        { action := "Rejected", user := current_user.email, timestamp := now }
      .ok (updateById store ts_id
        { ts with
          status := "Rejected"
          rejected_at := some now
          audit_trail := ts.audit_trail ++ [audit_entry] })

/-! ### Concrete fixtures used by witnesses and counterexamples -/

/-- An Employee identity. -/
def empAlice : Identity := { id := "emp-alice", email := "alice@example.com", role := .Employee }

/-- A second Employee identity, distinct from any record owner it is used with. -/
def empDave : Identity := { id := "emp-dave", email := "dave@example.com", role := .Employee }

/-- A Manager identity. -/
def mgrBob : Identity := { id := "mgr-bob", email := "bob@example.com", role := .Manager }

/-- An Admin identity. -/
def admCarol : Identity := { id := "adm-carol", email := "carol@example.com", role := .Admin }

/-- One row of seven daily entries, 8 hours Monday–Friday (total 40). -/
def rowsForty : List TimesheetRow :=
  [{ project_id := "p1", sub_project_id := "sp1",
     entries := [⟨0, 8, some ""⟩, ⟨1, 8, some ""⟩, ⟨2, 8, some ""⟩, ⟨3, 8, some ""⟩,
                 ⟨4, 8, some ""⟩, ⟨5, 0, some ""⟩, ⟨6, 0, some ""⟩] }]

/-- One row totalling 39 hours (under the 40-hour soft threshold). -/
def rowsThirtyNine : List TimesheetRow :=
  [{ project_id := "p1", sub_project_id := "sp1",
     entries := [⟨0, 8, some ""⟩, ⟨1, 8, some ""⟩, ⟨2, 8, some ""⟩, ⟨3, 8, some ""⟩,
                 ⟨4, 7, some ""⟩] }]

/-- A stored record of Alice's in status "Submitted". -/
def tsSub : Timesheet :=
  { user_id := "emp-alice", week_start_date := "2024-01-01", rows := rowsForty
    status := "Submitted", submitted_at := some 2
    audit_trail := [⟨"Created", "alice@example.com", 1⟩, ⟨"Submitted", "alice@example.com", 2⟩]
    total_hours := 40 }

/-- A stored record of Alice's in status "Draft" with total 39. -/
def tsDraft : Timesheet :=
  { user_id := "emp-alice", week_start_date := "2024-01-08", rows := rowsThirtyNine
    status := "Draft"
    audit_trail := [⟨"Created", "alice@example.com", 1⟩]
    total_hours := 39 }

/-- A stored record of Alice's in status "Approved". -/
def tsAppr : Timesheet :=
  { user_id := "emp-alice", week_start_date := "2024-01-15", rows := rowsForty
    status := "Approved", submitted_at := some 2, approved_at := some 3
    approved_by := some "mgr-bob"
    audit_trail := [⟨"Created", "alice@example.com", 1⟩, ⟨"Submitted", "alice@example.com", 2⟩,
                    ⟨"Approved", "bob@example.com", 3⟩]
    total_hours := 40 }

/-- A stored record of Alice's in status "Rejected". -/
def tsRej : Timesheet :=
  { user_id := "emp-alice", week_start_date := "2024-01-22", rows := rowsForty
    status := "Rejected", submitted_at := some 2, rejected_at := some 3
    audit_trail := [⟨"Created", "alice@example.com", 1⟩, ⟨"Submitted", "alice@example.com", 2⟩,
                    ⟨"Rejected", "bob@example.com", 3⟩]
    total_hours := 40 }

/-- A store holding the four fixture records. -/
def storeFix : Store :=
  [("t-sub", tsSub), ("t-draft", tsDraft), ("t-appr", tsAppr), ("t-rej", tsRej)]

/-- A save payload for Alice's submitted week, carrying deliberately bogus
caller-supplied `status` and `total_hours` values. -/
def paySub : Timesheet :=
  { user_id := "emp-alice", week_start_date := "2024-01-01", rows := rowsThirtyNine
    status := "Approved", total_hours := 999 }

/-- A save payload for Alice's rejected week. -/
def payRej : Timesheet :=
  { user_id := "emp-alice", week_start_date := "2024-01-22", rows := rowsForty
    status := "Submitted", total_hours := 999 }

/-- A save payload for Alice's draft week that also supplies workflow
timestamps, which Save copies verbatim. -/
def payDraft : Timesheet :=
  { user_id := "emp-alice", week_start_date := "2024-01-08", rows := rowsForty
    status := "Approved", total_hours := 0
    submitted_at := some 77, approved_at := some 78, approved_by := some "nobody"
    rejected_at := some 79 }

/-- A save payload naming a user other than the Employee caller,
for a week with no stored record. -/
def payOther : Timesheet :=
  { user_id := "someone-else", week_start_date := "2024-02-05", rows := []
    status := "Draft" }

/-- A save payload with no rows and a bogus caller-supplied total, for
Alice's submitted week. -/
def payNoRows : Timesheet :=
  { user_id := "emp-alice", week_start_date := "2024-01-01", rows := []
    status := "Approved", total_hours := 999 }

/-! ### Helper lemmas about the store and the aggregation loop -/

/-- The inner accumulation loop over one row's entries adds the list sum
of that row's hours to the accumulator. -/
theorem foldl_add_hours (l : List DailyEntry) (a : ℚ) :
    l.foldl (fun a e => a + e.hours) a = a + (l.map DailyEntry.hours).sum := by
  induction l generalizing a with
  | nil => simp
  | cons e t ih => simp [ih, add_assoc]

/-- The nested loop of `save_timesheet` computes the sum, over all rows,
of the sum of that row's entry hours. -/
theorem computeTotal_eq_sum (rows : List TimesheetRow) :
    computeTotal rows = (rows.map (fun r => (r.entries.map DailyEntry.hours).sum)).sum := by
  suffices h : ∀ a : ℚ,
      rows.foldl (fun acc row => row.entries.foldl (fun a e => a + e.hours) acc) a
        = a + (rows.map (fun r => (r.entries.map DailyEntry.hours).sum)).sum by
    simpa [computeTotal] using h 0
  induction rows with
  | nil => simp
  | cons r t ih =>
    intro a
    rw [List.foldl_cons, ih, foldl_add_hours, List.map_cons, List.sum_cons, add_assoc]

/-- After replacing the first record with a given id, looking that id up
yields the replacement (provided some record with the id existed). -/
theorem findById_updateById (store : Store) (i : String) (v : Timesheet)
    (h : (findById store i).isSome) :
    findById (updateById store i v) i = some v := by
  induction store with
  | nil => simp [findById] at h
  | cons p rest ih =>
    by_cases hp : p.1 == i
    · simp [updateById, findById, List.find?_cons, hp]
    · simp only [updateById, hp, if_false, Bool.false_eq_true]
      simp only [findById, List.find?_cons, hp] at h ⊢
      exact ih h

/-- A record found by natural key is a member of the store, so a lookup
by its id succeeds. -/
theorem findById_isSome_of_findByKey (store : Store) (uid wk eid : String) (ex : Timesheet)
    (h : findByKey store uid wk = some (eid, ex)) :
    (findById store eid).isSome = true := by
  have hmem : (eid, ex) ∈ store := List.mem_of_find?_eq_some h
  simp only [findById, Option.isSome_map']
  apply List.find?_isSome.mpr
  exact ⟨(eid, ex), hmem, beq_self_eq_true eid⟩

/-- Replacing the first record with a given id keeps an entry with that id
and the new value in the store. -/
theorem mem_updateById (store : Store) (i : String) (ex v : Timesheet)
    (h : (i, ex) ∈ store) : (i, v) ∈ updateById store i v := by
  induction store with
  | nil => cases h
  | cons p rest ih =>
    by_cases hp : p.1 == i
    · have h1 : p.1 = i := by simpa using hp
      simp [updateById, hp, h1]
    · rcases List.mem_cons.mp h with heq | hmem
      · exact absurd (by rw [← heq]; simp) hp
      · simp only [updateById, hp, if_false, Bool.false_eq_true]
        exact List.mem_cons_of_mem _ (ih hmem)

/-! ### Claims -/

/-- Claim C1: when a stored record exists for the payload's
(user_id, week_start_date) key and its status is "Submitted" or
"Approved", a Save by an Employee fails with `Locked` (no store is
produced, so the stored record is unchanged), while the same Save by a
Manager or Admin succeeds and the resulting record's status equals the
stored status. -/
theorem C1_employee_locked_manager_admin_override
    (store : Store) (cu : Identity) (payload : Timesheet) (newId : String) (now : Nat)
    (eid : String) (ex : Timesheet)
    (hfind : findByKey store payload.user_id payload.week_start_date = some (eid, ex))
    (hst : ex.status = "Submitted" ∨ ex.status = "Approved") :
    (cu.role = Role.Employee →
      save_timesheet store cu payload newId now = .error .Locked) ∧
    (cu.role = Role.Manager ∨ cu.role = Role.Admin →
      (save_timesheet store cu payload newId now).map (fun p => p.2.status)
        = .ok ex.status) := by
  have hnr : ¬ ex.status = "Rejected" := by
    rcases hst with h | h <;> rw [h] <;> decide
  constructor
  · intro hrole
    simp only [save_timesheet, hfind]
    rw [if_pos ⟨hst, hrole⟩]
  · intro hrole
    have hne : ¬ ((ex.status = "Submitted" ∨ ex.status = "Approved")
        ∧ cu.role = Role.Employee) := by
      rintro ⟨-, he⟩
      rcases hrole with h | h <;> rw [h] at he <;> cases he
    simp only [save_timesheet, hfind]
    rw [if_neg hne]
    simp [Except.map, hnr]

/-- Witness for C1: in the fixture store, Alice (Employee, owner of the
record) gets `Locked` saving her "Submitted" week, while Bob (Manager)
saves the same payload successfully and status "Submitted" is kept. -/
theorem C1_witness :
    save_timesheet storeFix empAlice paySub "n1" 5 = .error .Locked ∧
    (save_timesheet storeFix mgrBob paySub "n1" 5).map (fun p => p.2.status)
      = .ok tsSub.status :=
  ⟨(C1_employee_locked_manager_admin_override storeFix empAlice paySub "n1" 5
      "t-sub" tsSub rfl (Or.inl rfl)).1 rfl,
   (C1_employee_locked_manager_admin_override storeFix mgrBob paySub "n1" 5
      "t-sub" tsSub rfl (Or.inl rfl)).2 (Or.inl rfl)⟩

/-- Counterexample to claim C2: Dave (an Employee) saves a payload whose
`user_id` names another user, for a key with no stored record; far from
being denied, the Save succeeds and inserts a brand-new record for the
other user. -/
theorem C2_counterexample :
    empDave.role = Role.Employee ∧ payOther.user_id ≠ empDave.id ∧
    save_timesheet [] empDave payOther "n2" 4
      = .ok ([("n2", { payOther with
                total_hours := 0
                audit_trail := [⟨"Created", "dave@example.com", 4⟩]
                status := "Draft" })],
             { payOther with
                total_hours := 0
                audit_trail := [⟨"Created", "dave@example.com", 4⟩]
                status := "Draft" }) :=
  ⟨rfl, by decide, by rfl⟩

/-- Claim C2 amended: `save_timesheet` makes no ownership check at all —
a payload `user_id` differing from the caller's id is never, by itself, a
reason to deny. The only failure of Save is `Locked`, and it occurs
exactly when a record already exists for the payload's key, its status is
"Submitted" or "Approved", and the caller's role is Employee. -/
theorem C2_amended_save_has_no_ownership_check
    (store : Store) (cu : Identity) (payload : Timesheet) (newId : String) (now : Nat)
    (e : ApiError)
    (herr : save_timesheet store cu payload newId now = .error e) :
    e = ApiError.Locked ∧ cu.role = Role.Employee ∧
    ∃ eid ex, findByKey store payload.user_id payload.week_start_date = some (eid, ex) ∧
      (ex.status = "Submitted" ∨ ex.status = "Approved") := by
  rcases hf : findByKey store payload.user_id payload.week_start_date with _ | ⟨eid, ex⟩
  · simp only [save_timesheet, hf] at herr
    exact Except.noConfusion herr
  · simp only [save_timesheet, hf] at herr
    by_cases hc : (ex.status = "Submitted" ∨ ex.status = "Approved")
        ∧ cu.role = Role.Employee
    · rw [if_pos hc] at herr
      cases herr
      exact ⟨rfl, hc.2, eid, ex, rfl, hc.1⟩
    · rw [if_neg hc] at herr
      exact Except.noConfusion herr

/-- Witness for the amended C2: Alice's denied Save of her "Submitted"
week is a `Locked` failure with the required existing record. -/
theorem C2_amended_witness :
    ApiError.Locked = ApiError.Locked ∧ empAlice.role = Role.Employee ∧
    ∃ eid ex, findByKey storeFix paySub.user_id paySub.week_start_date = some (eid, ex) ∧
      (ex.status = "Submitted" ∨ ex.status = "Approved") :=
  C2_amended_save_has_no_ownership_check storeFix empAlice paySub "n1" 5 .Locked rfl

/-- Claim C3: every successful Save stores as `total_hours` the sum of
`hours` over every daily entry of every row of the payload (0 for no
rows); the caller-supplied `total_hours` field appears nowhere in the
result. -/
theorem C3_total_hours_recomputed
    (store : Store) (cu : Identity) (payload : Timesheet) (newId : String) (now : Nat)
    (hok : (save_timesheet store cu payload newId now).isOk = true) :
    (save_timesheet store cu payload newId now).map (fun p => p.2.total_hours)
      = .ok ((payload.rows.map (fun r => (r.entries.map DailyEntry.hours).sum)).sum) := by
  rcases hf : findByKey store payload.user_id payload.week_start_date with _ | ⟨eid, ex⟩
  · simp only [save_timesheet, hf, Except.map]
    exact congrArg Except.ok (computeTotal_eq_sum payload.rows)
  · by_cases hc : (ex.status = "Submitted" ∨ ex.status = "Approved")
        ∧ cu.role = Role.Employee
    · simp only [save_timesheet, hf, if_pos hc, Except.isOk, Except.toBool] at hok
      exact Bool.noConfusion hok
    · simp only [save_timesheet, hf, if_neg hc, Except.map]
      exact congrArg Except.ok (computeTotal_eq_sum payload.rows)

/-- Witness for C3: Bob's Save of a payload carrying bogus
`total_hours = 999` and an empty row set stores a total of 0 (the empty
sum), not 999. -/
theorem C3_witness :
    payNoRows.total_hours = 999 ∧
    (payNoRows.rows.map (fun r => (r.entries.map DailyEntry.hours).sum)).sum = 0 ∧
    (save_timesheet storeFix mgrBob payNoRows "n1" 5).map (fun p => p.2.total_hours)
      = .ok ((payNoRows.rows.map (fun r => (r.entries.map DailyEntry.hours).sum)).sum) :=
  ⟨rfl, by simp [payNoRows],
   C3_total_hours_recomputed storeFix mgrBob payNoRows "n1" 5 rfl⟩

/-- Claim C4: every successful Save stores the status determined solely
from the stored state: "Draft" when no record existed for the key,
"Draft" when the stored status was "Rejected", and otherwise the stored
status unchanged. The caller-supplied `status` field of the payload
appears nowhere in the determination. -/
theorem C4_status_determination
    (store : Store) (cu : Identity) (payload : Timesheet) (newId : String) (now : Nat)
    (hok : (save_timesheet store cu payload newId now).isOk = true) :
    (save_timesheet store cu payload newId now).map (fun p => p.2.status)
      = .ok (match findByKey store payload.user_id payload.week_start_date with
             | none => "Draft"
             | some (_, ex) => if ex.status = "Rejected" then "Draft" else ex.status) := by
  rcases hf : findByKey store payload.user_id payload.week_start_date with _ | ⟨eid, ex⟩
  · simp only [save_timesheet, hf, Except.map]
  · by_cases hc : (ex.status = "Submitted" ∨ ex.status = "Approved")
        ∧ cu.role = Role.Employee
    · simp only [save_timesheet, hf, if_pos hc, Except.isOk, Except.toBool] at hok
      exact Bool.noConfusion hok
    · simp only [save_timesheet, hf, if_neg hc, Except.map]

/-- Witness for C4: Alice saves her "Rejected" week with a payload whose
own status field says "Submitted"; the stored status nevertheless resets
to "Draft". -/
theorem C4_witness :
    (save_timesheet storeFix empAlice payRej "n1" 6).map (fun p => p.2.status)
      = .ok (match findByKey storeFix payRej.user_id payRej.week_start_date with
             | none => "Draft"
             | some (_, ex) => if ex.status = "Rejected" then "Draft" else ex.status) ∧
    (match findByKey storeFix payRej.user_id payRej.week_start_date with
     | none => "Draft"
     | some (_, ex) => if ex.status = "Rejected" then "Draft" else ex.status) = "Draft" ∧
    payRej.status = "Submitted" :=
  ⟨C4_status_determination storeFix empAlice payRej "n1" 6 rfl, by rfl, rfl⟩

/-- Claim C5: the audit trail is append-only. Each of the four mutating
operations, when it succeeds, leaves the affected record with an
audit_trail equal to the prior audit_trail with exactly one entry
appended at the end — "Created" for a Save with no prior record,
"Updated" for a Save over an existing one, and "Submitted" / "Approved" /
"Rejected" for the respective operations. -/
theorem C5_audit_trail_append_only :
    (∀ (store : Store) (cu : Identity) (payload : Timesheet) (newId : String) (now : Nat),
      (save_timesheet store cu payload newId now).isOk = true →
      (save_timesheet store cu payload newId now).map (fun p => p.2.audit_trail)
        = .ok ((match findByKey store payload.user_id payload.week_start_date with
                | none => []
                | some (_, ex) => ex.audit_trail) ++
               [{ action := match findByKey store payload.user_id payload.week_start_date with
                            | none => "Created"
                            | some _ => "Updated"
                  user := cu.email, timestamp := now }])) ∧
    (∀ (store : Store) (cu : Identity) (i : String) (now : Nat) (ts : Timesheet) (st2 : Store),
      findById store i = some ts →
      submit_timesheet store cu i now = .ok st2 →
      (findById st2 i).map (·.audit_trail)
        = some (ts.audit_trail ++ [⟨"Submitted", cu.email, now⟩])) ∧
    (∀ (store : Store) (cu : Identity) (i : String) (now : Nat) (ts : Timesheet) (st2 : Store),
      findById store i = some ts →
      approve_timesheet store cu i now = .ok st2 →
      (findById st2 i).map (·.audit_trail)
        = some (ts.audit_trail ++ [⟨"Approved", cu.email, now⟩])) ∧
    (∀ (store : Store) (cu : Identity) (i : String) (now : Nat) (ts : Timesheet) (st2 : Store),
      findById store i = some ts →
      reject_timesheet store cu i now = .ok st2 →
      (findById st2 i).map (·.audit_trail)
        = some (ts.audit_trail ++ [⟨"Rejected", cu.email, now⟩])) := by
  refine ⟨?_, ?_, ?_, ?_⟩
  · intro store cu payload newId now hok
    rcases hf : findByKey store payload.user_id payload.week_start_date with _ | ⟨eid, ex⟩
    · simp only [save_timesheet, hf, Except.map, List.nil_append]
    · by_cases hc : (ex.status = "Submitted" ∨ ex.status = "Approved")
          ∧ cu.role = Role.Employee
      · simp only [save_timesheet, hf, if_pos hc, Except.isOk, Except.toBool] at hok
        exact Bool.noConfusion hok
      · simp only [save_timesheet, hf, if_neg hc, Except.map]
  · intro store cu i now ts st2 hfind hok
    simp only [submit_timesheet, hfind] at hok
    injection hok with h
    subst h
    rw [findById_updateById store i _ (by rw [hfind]; rfl)]
    rfl
  · intro store cu i now ts st2 hfind hok
    by_cases hrole : cu.role = Role.Employee
    · simp only [approve_timesheet, if_pos hrole] at hok
      exact Except.noConfusion hok
    · simp only [approve_timesheet, if_neg hrole, hfind] at hok
      injection hok with h
      subst h
      rw [findById_updateById store i _ (by rw [hfind]; rfl)]
      rfl
  · intro store cu i now ts st2 hfind hok
    by_cases hrole : cu.role = Role.Employee
    · simp only [reject_timesheet, if_pos hrole] at hok
      exact Except.noConfusion hok
    · simp only [reject_timesheet, if_neg hrole, hfind] at hok
      injection hok with h
      subst h
      rw [findById_updateById store i _ (by rw [hfind]; rfl)]
      rfl

/-- The record Alice's draft becomes after she submits it at instant 9. -/
def tsDraftSubmitted : Timesheet :=
  { tsDraft with
    status := "Submitted"
    submitted_at := some 9
    audit_trail := tsDraft.audit_trail ++ [⟨"Submitted", "alice@example.com", 9⟩] }

/-- Witness for C5, at the Submit conjunct: submitting Alice's stored
draft appends exactly the one "Submitted" entry to its prior trail. -/
theorem C5_witness :
    (findById (updateById storeFix "t-draft" tsDraftSubmitted) "t-draft").map (·.audit_trail)
      = some (tsDraft.audit_trail ++ [⟨"Submitted", "alice@example.com", 9⟩]) :=
  C5_audit_trail_append_only.2.1 storeFix empAlice "t-draft" 9 tsDraft
    (updateById storeFix "t-draft" tsDraftSubmitted) rfl rfl

/-- Claim C6: Approve and Reject are guarded by role alone. An Employee
always gets `Forbidden` (no store is produced, so the record is
unchanged); a non-Employee caller succeeds on an existing record of any
status — no status guard is applied. -/
theorem C6_approve_reject_role_guard_only :
    (∀ (store : Store) (cu : Identity) (i : String) (now : Nat),
      cu.role = Role.Employee →
      approve_timesheet store cu i now = .error .Forbidden) ∧
    (∀ (store : Store) (cu : Identity) (i : String) (now : Nat),
      cu.role = Role.Employee →
      reject_timesheet store cu i now = .error .Forbidden) ∧
    (∀ (store : Store) (cu : Identity) (i : String) (now : Nat) (ts : Timesheet),
      cu.role ≠ Role.Employee → findById store i = some ts →
      (approve_timesheet store cu i now).isOk = true) ∧
    (∀ (store : Store) (cu : Identity) (i : String) (now : Nat) (ts : Timesheet),
      cu.role ≠ Role.Employee → findById store i = some ts →
      (reject_timesheet store cu i now).isOk = true) := by
  refine ⟨?_, ?_, ?_, ?_⟩
  · intro store cu i now h
    simp only [approve_timesheet, if_pos h]
  · intro store cu i now h
    simp only [reject_timesheet, if_pos h]
  · intro store cu i now ts hrole hfind
    simp only [approve_timesheet, if_neg hrole, hfind, Except.isOk, Except.toBool]
  · intro store cu i now ts hrole hfind
    simp only [reject_timesheet, if_neg hrole, hfind, Except.isOk, Except.toBool]

/-- Witness for C6: Alice (Employee) is forbidden to approve a Draft or
reject an Approved record; Bob (Manager) approves the Draft record and
Carol (Admin) rejects the Approved one — neither is in "Submitted". -/
theorem C6_witness :
    approve_timesheet storeFix empAlice "t-draft" 9 = .error .Forbidden ∧
    reject_timesheet storeFix empAlice "t-appr" 9 = .error .Forbidden ∧
    (approve_timesheet storeFix mgrBob "t-draft" 9).isOk = true ∧
    (reject_timesheet storeFix admCarol "t-appr" 9).isOk = true :=
  ⟨C6_approve_reject_role_guard_only.1 storeFix empAlice "t-draft" 9 rfl,
   C6_approve_reject_role_guard_only.2.1 storeFix empAlice "t-appr" 9 rfl,
   C6_approve_reject_role_guard_only.2.2.1 storeFix mgrBob "t-draft" 9 tsDraft
     (by decide) rfl,
   C6_approve_reject_role_guard_only.2.2.2 storeFix admCarol "t-appr" 9 tsAppr
     (by decide) rfl⟩

/-- Counterexample to claim C7: Dave, an Employee who does not own the
record, submits Alice's "Approved" week — neither the status guard
("only Draft or Rejected") nor the caller guard ("owning user or
authorized manager") exists in the code, and the Submit succeeds. -/
theorem C7_counterexample :
    tsAppr.status = "Approved" ∧ empDave.id ≠ tsAppr.user_id ∧
    empDave.role = Role.Employee ∧
    (submit_timesheet storeFix empDave "t-appr" 9).isOk = true :=
  ⟨rfl, by decide, rfl, rfl⟩

/-- Claim C7 amended: Submit fails `NotFound` when no record exists for
the given id; when a record exists, Submit succeeds unconditionally —
the code applies no status guard and no ownership or role check. -/
theorem C7_amended_submit_unguarded
    (store : Store) (cu : Identity) (i : String) (now : Nat) :
    (findById store i = none → submit_timesheet store cu i now = .error .NotFound) ∧
    (∀ ts, findById store i = some ts →
      (submit_timesheet store cu i now).isOk = true) := by
  constructor
  · intro h
    simp only [submit_timesheet, h]
  · intro ts h
    simp only [submit_timesheet, h, Except.isOk, Except.toBool]

/-- Witness for the amended C7: a missing id yields `NotFound`; Dave's
unauthorized Submit of an Approved record succeeds. -/
theorem C7_amended_witness :
    submit_timesheet [] empDave "no-such-id" 9 = .error .NotFound ∧
    (submit_timesheet storeFix empDave "t-appr" 9).isOk = true :=
  ⟨(C7_amended_submit_unguarded [] empDave "no-such-id" 9).1 rfl,
   (C7_amended_submit_unguarded storeFix empDave "t-appr" 9).2 tsAppr rfl⟩

/-- Claim C8: a successful Submit of an existing Draft record stores
status "Submitted", a non-null `submitted_at` (the current instant),
exactly one appended "Submitted" audit entry, and leaves `total_hours`
and `rows` unchanged. Nothing constrains `total_hours`, so Submit also
succeeds when the total is under 40 (the witness uses a 39-hour draft). -/
theorem C8_submit_draft_effects
    (store : Store) (cu : Identity) (i : String) (now : Nat) (ts : Timesheet)
    (hfind : findById store i = some ts) (_hdraft : ts.status = "Draft") :
    (submit_timesheet store cu i now).isOk = true ∧
    (submit_timesheet store cu i now).map (fun st2 => (findById st2 i).map (·.status))
      = .ok (some "Submitted") ∧
    (submit_timesheet store cu i now).map (fun st2 => (findById st2 i).map (·.submitted_at))
      = .ok (some (some now)) ∧
    (submit_timesheet store cu i now).map (fun st2 => (findById st2 i).map (·.audit_trail))
      = .ok (some (ts.audit_trail ++ [⟨"Submitted", cu.email, now⟩])) ∧
    (submit_timesheet store cu i now).map (fun st2 => (findById st2 i).map (·.total_hours))
      = .ok (some ts.total_hours) ∧
    (submit_timesheet store cu i now).map (fun st2 => (findById st2 i).map (·.rows))
      = .ok (some ts.rows) := by
  have hupd := findById_updateById store i
    { ts with
      status := "Submitted"
      submitted_at := some now
      audit_trail := ts.audit_trail ++ [⟨"Submitted", cu.email, now⟩] }
    (by rw [hfind]; rfl)
  refine ⟨?_, ?_, ?_, ?_, ?_, ?_⟩ <;>
    simp only [submit_timesheet, hfind, Except.map, Except.isOk, Except.toBool, hupd,
      Option.map_some']

/-- Witness for C8: Alice submits her 39-hour draft (a total under 40)
and the Submit succeeds with every stated effect. -/
theorem C8_witness :
    tsDraft.total_hours = 39 ∧
    ((submit_timesheet storeFix empAlice "t-draft" 9).isOk = true ∧
     (submit_timesheet storeFix empAlice "t-draft" 9).map
        (fun st2 => (findById st2 "t-draft").map (·.status)) = .ok (some "Submitted") ∧
     (submit_timesheet storeFix empAlice "t-draft" 9).map
        (fun st2 => (findById st2 "t-draft").map (·.submitted_at)) = .ok (some (some 9)) ∧
     (submit_timesheet storeFix empAlice "t-draft" 9).map
        (fun st2 => (findById st2 "t-draft").map (·.audit_trail))
        = .ok (some (tsDraft.audit_trail ++ [⟨"Submitted", "alice@example.com", 9⟩])) ∧
     (submit_timesheet storeFix empAlice "t-draft" 9).map
        (fun st2 => (findById st2 "t-draft").map (·.total_hours))
        = .ok (some tsDraft.total_hours) ∧
     (submit_timesheet storeFix empAlice "t-draft" 9).map
        (fun st2 => (findById st2 "t-draft").map (·.rows)) = .ok (some tsDraft.rows)) :=
  ⟨rfl, C8_submit_draft_effects storeFix empAlice "t-draft" 9 tsDraft rfl rfl⟩

/-- Counterexample to claim C9: a Manager's Reject of a nonexistent id
does not report success — looking up the missing record yields `None`,
and evaluating `ts.get('audit_trail', [])` on it raises an unhandled
`AttributeError` (`noneGet`) before the update runs. -/
theorem C9_counterexample :
    mgrBob.role ≠ Role.Employee ∧
    findById storeFix "no-such-id" = none ∧
    reject_timesheet storeFix mgrBob "no-such-id" 9 = .error .noneGet ∧
    (reject_timesheet storeFix mgrBob "no-such-id" 9).isOk = false :=
  ⟨by decide, rfl, rfl, rfl⟩

/-- Claim C9 amended: a Reject by a non-Employee on a nonexistent id
indeed does not fail with `NotFound` — but neither is it a successful
no-op: it fails with the unhandled `AttributeError` (`noneGet`) raised by
reading `audit_trail` off the missing (`None`) record, before any update
is issued. -/
theorem C9_amended_reject_missing_crashes
    (store : Store) (cu : Identity) (i : String) (now : Nat)
    (hrole : cu.role ≠ Role.Employee) (hmiss : findById store i = none) :
    reject_timesheet store cu i now = .error .noneGet ∧
    reject_timesheet store cu i now ≠ .error .NotFound ∧
    (reject_timesheet store cu i now).isOk = false := by
  have h : reject_timesheet store cu i now = .error .noneGet := by
    simp only [reject_timesheet, if_neg hrole, hmiss]
  refine ⟨h, ?_, ?_⟩
  · rw [h]
    simp
  · rw [h]
    rfl

/-- Witness for the amended C9: Carol (Admin) rejecting a ghost id on an
empty store gets the `noneGet` crash, not `NotFound`, not success. -/
theorem C9_amended_witness :
    reject_timesheet [] admCarol "ghost" 3 = .error .noneGet ∧
    reject_timesheet [] admCarol "ghost" 3 ≠ .error .NotFound ∧
    (reject_timesheet [] admCarol "ghost" 3).isOk = false :=
  C9_amended_reject_missing_crashes [] admCarol "ghost" 3 (by decide) rfl

/-- The record Alice's draft week becomes when she saves `payDraft`
(which carries explicit workflow timestamps) at instant 7. -/
def tsDraftSaved : Timesheet :=
  { payDraft with
    total_hours := computeTotal payDraft.rows
    audit_trail := tsDraft.audit_trail ++ [⟨"Updated", "alice@example.com", 7⟩]
    status := "Draft" }

/-- Claim C10: every successful Save writes the caller-supplied
`submitted_at`, `approved_at`, `approved_by` and `rejected_at` verbatim
into the stored record (the structure defaults are `none` when the
payload omits them), on both the insert and the update path — the stored
record's previous workflow timestamps are not preserved. -/
theorem C10_workflow_timestamps_overwritten
    (store : Store) (cu : Identity) (payload : Timesheet) (newId : String) (now : Nat)
    (st2 : Store) (ts2 : Timesheet)
    (hok : save_timesheet store cu payload newId now = .ok (st2, ts2)) :
    ts2.submitted_at = payload.submitted_at ∧
    ts2.approved_at = payload.approved_at ∧
    ts2.approved_by = payload.approved_by ∧
    ts2.rejected_at = payload.rejected_at ∧
    ∃ i, (i, ts2) ∈ st2 := by
  rcases hf : findByKey store payload.user_id payload.week_start_date with _ | ⟨eid, ex⟩
  · simp only [save_timesheet, hf] at hok
    injection hok with h
    have h1 : store ++ [(newId, _)] = st2 := congrArg Prod.fst h
    have h2 := congrArg Prod.snd h
    subst h2
    subst h1
    exact ⟨rfl, rfl, rfl, rfl, newId, by simp⟩
  · by_cases hc : (ex.status = "Submitted" ∨ ex.status = "Approved")
        ∧ cu.role = Role.Employee
    · simp only [save_timesheet, hf, if_pos hc] at hok
      exact Except.noConfusion hok
    · simp only [save_timesheet, hf, if_neg hc] at hok
      injection hok with h
      have h2 := congrArg Prod.snd h
      have h1 := congrArg Prod.fst h
      subst h2
      subst h1
      exact ⟨rfl, rfl, rfl, rfl, eid,
        mem_updateById store eid ex _ (List.mem_of_find?_eq_some hf)⟩

/-- Witness for C10: Alice saves `payDraft`, whose payload sets
`submitted_at = 77`, `approved_at = 78`, `approved_by = "nobody"`,
`rejected_at = 79`, onto her Draft week; the stored record carries those
exact values. -/
theorem C10_witness :
    tsDraftSaved.submitted_at = payDraft.submitted_at ∧
    tsDraftSaved.approved_at = payDraft.approved_at ∧
    tsDraftSaved.approved_by = payDraft.approved_by ∧
    tsDraftSaved.rejected_at = payDraft.rejected_at ∧
    ∃ i, (i, tsDraftSaved) ∈ updateById storeFix "t-draft" tsDraftSaved :=
  C10_workflow_timestamps_overwritten storeFix empAlice payDraft "n1" 7
    (updateById storeFix "t-draft" tsDraftSaved) tsDraftSaved rfl
